import Mathlib

/-!
Verification of the overlay-protocol codec (encoding-class classifier, payload
assembler, sender resolver and parse orchestrator) of this repository.

The repository ships the unit tests of the codec
(src/omnicore/test/parsing_a_tests.cpp, parsing_c_tests.cpp,
sender_bycontribution_tests.cpp, sender_firstin_tests.cpp,
encoding_b_tests.cpp) while the implementation itself (the omnicore
parsing, encoding, script and rules translation units) is not part of the
source tree.  The definitions below are therefore modelled from the
specification, and where the specification leaves room, pinned to the
concrete behaviour the unit tests check.  Machine integers (int64 output
values) are modelled as unbounded Int, byte strings as List Nat.
-/

namespace Omni

/-- Protocol marker bytes 0x6f 0x6d 0x6e 0x69 ("omni"), the fixed 4-byte
marker identifying a null-data output as protocol-bearing.  The hex form
6f6d6e69 appears throughout parsing_c_tests.cpp. -/
def omMarker : List Nat := [0x6f, 0x6d, 0x6e, 0x69]

/-- Modelled from the spec: PACKET_SIZE, a network constant (spec section 6)
whose definition is not under src; the value matches the packet size used
by the reference protocol. -/
def PACKET_SIZE : Nat := 31

/-- Modelled from the spec: MAX_PACKETS, a network constant (spec section 6)
whose definition is not under src; the value matches the reference
protocol.  Only the product MAX_PACKETS * PACKET_SIZE (the payload bound)
matters below. -/
def MAX_PACKETS : Nat := 255

/-- Modelled from the spec: the fixed reference ("Exodus") address used by
Class A/B terminators (spec section 6).  The string is taken from
encoding_b_tests.cpp and parsing tests in src. -/
def exodusAddress : String := "CEXodUs3feFVbq2zfvBimFdpS4evGZq15c"

/-- Script of an output, at the granularity of the script classifier
(spec section 4.1): standard single-address scripts carry their decoded
canonical address string, null-data scripts carry their pushed data
segments, bare multisig scripts carry their data-bearing pushed keys. -/
inductive Script where
  | p2pkh (addr : String)
  | p2sh (addr : String)
  | p2pk
  | bareMultisig (dataKeys : List (List Nat))
  | nullData (pushes : List (List Nat))
  | nonStandard
deriving DecidableEq

/-- A transaction output: a destination script plus an integer value
(spec section 3). -/
structure Output where
  script : Script
  value : Int
deriving DecidableEq

/-- A transaction, with its input references already resolved through the
coin-lookup collaborator: `inputs` lists, in input order, the prior
outputs the transaction consumes (spec sections 3 and 6). -/
structure Tx where
  inputs : List Output
  outputs : List Output
deriving DecidableEq

/-- Height-gated activation rules threaded through parsing
(spec section 9): the null-data activation height. -/
structure ActivationRules where
  nulldataBlock : Nat
deriving DecidableEq

/-- Script classifier, address extraction: defined only for P2PKH and P2SH;
all other script classes yield none (spec section 4.1). -/
def addressOf : Script → Option String
  | .p2pkh a => some a
  | .p2sh a => some a
  | _ => none

/-- An output is a standard single-address output when its script decodes
to an address. -/
def isStandardOutput (o : Output) : Bool :=
  (addressOf o.script).isSome

/-- An output is a bare multisig output. -/
def isBareMultisigOutput (o : Output) : Bool :=
  match o.script with
  | .bareMultisig _ => true
  | _ => false

/-- Sum of the values of a list of outputs. -/
def sumValues (outs : List Output) : Int :=
  (outs.map Output.value).sum

/-! ### Sender resolution (spec section 4.4) -/

/-- Modelled from the spec: first-input sender resolution (Class C), from
the missing omnicore parsing translation unit.  Only the prior output of
the first input is consulted; it must classify as P2PKH or P2SH and its
address is the sender (spec section 4.4, sender_firstin_tests.cpp). -/
def getSenderFirstIn : List Output → Option String
  | [] => none
  | o :: _ => addressOf o.script

/-- The (address, value) contributions of a list of resolved inputs,
keeping only inputs whose prior output decodes to an address. -/
def contribList (inputs : List Output) : List (String × Int) :=
  inputs.filterMap fun o => (addressOf o.script).map fun a => (a, o.value)

/-- Total value contributed by address `a` in contribution list `l`. -/
def sumFor (l : List (String × Int)) (a : String) : Int :=
  ((l.filter fun p => p.1 == a).map Prod.snd).sum

/-- Candidate `c` beats candidate `b`: it contributed strictly more summed
value, or the same summed value with a lexicographically smaller canonical
address string (spec section 4.4). -/
def wins (l : List (String × Int)) (c b : String) : Prop :=
  sumFor l b < sumFor l c ∨ (sumFor l c = sumFor l b ∧ c < b)

instance (l : List (String × Int)) (c b : String) : Decidable (wins l c b) :=
  inferInstanceAs (Decidable (_ ∨ _))

/-- Scan of the candidate list keeping the best candidate seen so far. -/
def pickBest (l : List (String × Int)) (a : String) (rest : List String) : String :=
  rest.foldl (fun best c => if wins l c best then c else best) a

/-- Candidate addresses of a list of resolved inputs (with repetitions). -/
def candidates (inputs : List Output) : List String :=
  (contribList inputs).map Prod.fst

/-- Modelled from the spec: contribution-sum sender resolution
(Class A and B), from the missing omnicore parsing translation unit.
Every input's prior output must classify as P2PKH or P2SH, or resolution
fails for the whole transaction; values are summed per address, and the
address with the greatest sum wins, ties broken by ascending lexicographic
order of the address string (spec section 4.4,
sender_bycontribution_tests.cpp). -/
def getSenderByContribution (inputs : List Output) : Option String :=
  if inputs.all isStandardOutput then
    match candidates inputs with
    | [] => none
    | a :: rest => some (pickBest (contribList inputs) a rest)
  else none

/-! ### Class C payload assembly (spec sections 4.2 and 4.3) -/

/-- Does `l` begin with the byte sequence `pat`? -/
def beginsWith (pat l : List Nat) : Bool :=
  decide (l.take pat.length = pat)

/-- Pushed data segments of the first null-data output of the list, if a
null-data output is present. -/
def firstNullData : List Output → Option (List (List Nat))
  | [] => none
  | o :: rest =>
    match o.script with
    | .nullData pushes => some pushes
    | _ => firstNullData rest

/-- A pushed-data list bears the marker when its first push begins with
the exact 4-byte protocol marker. -/
def markerBearing (pushes : List (List Nat)) : Bool :=
  match pushes with
  | [] => false
  | first :: _ => beginsWith omMarker first

/-- Modelled from the spec: the bytes one null-data output contributes to a
Class C payload, from the missing omnicore parsing translation unit.  A
marker-bearing output contributes its first push with the marker stripped
followed by its remaining pushes verbatim; a null-data output whose first
push does not begin with the marker contributes nothing.  This per-output
behaviour is pinned by the multiple_op_return and multiple_op_return_short
tests in parsing_c_tests.cpp. -/
def nullDataContribution (pushes : List (List Nat)) : List Nat :=
  match pushes with
  | [] => []
  | first :: rest =>
    if beginsWith omMarker first then first.drop omMarker.length ++ rest.flatten
    else []

/-- Untruncated Class C payload: contributions of all outputs concatenated
in output order. -/
def classCPayloadRaw : List Output → List Nat
  | [] => []
  | o :: rest =>
    (match o.script with
     | .nullData pushes => nullDataContribution pushes
     | _ => []) ++ classCPayloadRaw rest

/-- Class C payload: the concatenated bytes truncated to the fixed maximum
payload length MAX_PACKETS * PACKET_SIZE (spec sections 3 and 4.3). -/
def classCPayload (outs : List Output) : List Nat :=
  (classCPayloadRaw outs).take (MAX_PACKETS * PACKET_SIZE)

/-- The contribution of one output to a Class C payload as an optional
byte string: some bytes for a marker-bearing null-data output, none
otherwise.  Used to state the per-output decode rule declaratively. -/
def markedPayload (o : Output) : Option (List Nat) :=
  match o.script with
  | .nullData (first :: rest) =>
    if beginsWith omMarker first then some (first.drop omMarker.length ++ rest.flatten)
    else none
  | _ => none

/-- Class C decode exactly as worded by the specification (spec section
4.3, first sentence): starting at the first marker-bearing null-data
output, concatenate every pushed-data segment of every null-data output in
output order, stripping the marker only from the first push of that first
output and appending every subsequent push verbatim.  Stated only to be
compared against the modelled decoder. -/
def specWordedClassCPayload : List Output → List Nat
  | [] => []
  | o :: rest =>
    match o.script with
    | .nullData (first :: ps) =>
      if beginsWith omMarker first then
        ((first.drop omMarker.length ++ ps.flatten) ++ allNullDataPushes rest).take
          (MAX_PACKETS * PACKET_SIZE)
      else specWordedClassCPayload rest
    | _ => specWordedClassCPayload rest
where
  /-- Every pushed-data segment of every null-data output, verbatim. -/
  allNullDataPushes : List Output → List Nat
    | [] => []
    | o :: rest =>
      (match o.script with
       | .nullData pushes => pushes.flatten
       | _ => []) ++ allNullDataPushes rest

/-! ### Class B encoding (spec section 4.3) -/

/-- Modelled from the spec: splitting a payload into the fixed-size chunks
carried by one data-bearing pushed key (30 payload bytes each, one byte of
each PACKET_SIZE-byte packet being the sequence number), from the missing
omnicore encoding translation unit (spec section 4.3, Class B encode). -/
def chunksOf : List Nat → List (List Nat)
  | [] => []
  | x :: xs => (x :: xs.take (PACKET_SIZE - 2)) :: chunksOf (xs.drop (PACKET_SIZE - 2))
termination_by l => l.length
decreasing_by
  simp only [List.length_drop, List.length_cons]
  omega

/-- Grouping of chunks in pairs: each bare multisig output carries up to
two data-bearing keys next to the real public key (1-of-3 multisig), as
checked by encoding_b_tests.cpp. -/
def pairUp : List (List Nat) → List (List (List Nat))
  | [] => []
  | [x] => [[x]]
  | x :: y :: rest => [x, y] :: pairUp rest

/-- Modelled from the spec: nominal output value of an encoded output (the
dust threshold); its numeric value is not part of the excerpted material
and no claim depends on it. -/
def dustValue : Int := 1

/-- Modelled from the spec: the Class B encoder, from the missing omnicore
encoding translation unit (spec section 4.3, Class B encode): the payload
is split into fixed-size chunks, laid out two chunks per bare multisig
output, followed by the terminating standard output paying the fixed
reference address (encoding_b_tests.cpp: class_b_empty, class_b_maidsafe,
class_b_tetherus).  The per-output keystream obfuscation is a pinned
protocol constant explicitly left open by the spec (section 9) and is not
modelled; the data keys carry the chunk bytes.  The encoder accepts every
payload. -/
def encodeClassB (payload : List Nat) : List Output :=
  (pairUp (chunksOf payload)).map (fun ks => ⟨.bareMultisig ks, dustValue⟩)
    ++ [⟨.p2pkh exodusAddress, dustValue⟩]

/-- Modelled from the spec: Class B decode payload bytes, the data chunks
of the bare multisig outputs concatenated in output order (spec section
4.3); deobfuscation is the pinned keystream left open by the spec and not
modelled. -/
def classBPayload (outs : List Output) : List Nat :=
  ((outs.filterMap fun o =>
    match o.script with
    | .bareMultisig ks => some ks.flatten
    | _ => none).flatten).take (MAX_PACKETS * PACKET_SIZE)

/-! ### Encoding-class classification and parse orchestration
(spec sections 4.2 and 4.5) -/

/-- Modelled from the spec: the legacy Class B structural output pattern,
one or more consecutive bare multisig outputs immediately followed by a
standard single-address output (spec section 4.2, step 2), from the
missing omnicore parsing translation unit. -/
def hasClassBPattern : List Output → Bool
  | o1 :: rest@(o2 :: _) =>
    (isBareMultisigOutput o1 && isStandardOutput o2) || hasClassBPattern rest
  | _ => false

/-- Modelled from the spec: the legacy Class A structural pattern, which
the spec characterises only as containing the small-value marker output
paying the network's fixed reference address (spec section 4.2, step 3);
the remaining duck-typing of reference and change outputs belongs to the
closed legacy decode table (spec section 4.3) absent from the excerpted
material. -/
def hasClassAPattern (outs : List Output) : Bool :=
  outs.any fun o => addressOf o.script == some exodusAddress

/-- Encoding class of a protocol transaction (spec section 3): a closed
tag. -/
inductive TxClass where
  | classA
  | classB
  | classC
deriving DecidableEq

/-- Typed parse failures (spec section 7). -/
inductive ParseError where
  | malformedPayload
  | unresolvableSender
  | activationNotReached
deriving DecidableEq

/-- The structured message produced by a successful parse (spec section
3): sender, optional receiver, fee paid, payload bytes, encoding class and
the block height parsed against. -/
structure ParsedMessage where
  sender : String
  receiver : Option String
  fee : Int
  payload : List Nat
  txClass : TxClass
  blockHeight : Nat
deriving DecidableEq

/-- Result of the parse orchestrator: a distinguished no-payload result, a
typed error, or a parsed message (spec sections 4.5 and 7). -/
inductive ParseResult where
  | notProtocol
  | err (e : ParseError)
  | ok (m : ParsedMessage)
deriving DecidableEq

/-- Payload of a successful parse, if any. -/
def payloadOf : ParseResult → Option (List Nat)
  | .ok m => some m.payload
  | _ => none

/-- Fee of a successful parse, if any. -/
def feeOf : ParseResult → Option Int
  | .ok m => some m.fee
  | _ => none

/-- Sender of a successful parse, if any. -/
def senderOf : ParseResult → Option String
  | .ok m => some m.sender
  | _ => none

/-- Modelled from the spec: the receiver (reference) address of a Class B
or C transaction, the last standard-address output not paying the fixed
reference address; the receiver is optional and no claim depends on it
(spec section 3). -/
def lastReference (outs : List Output) : Option String :=
  outs.foldl
    (fun acc o =>
      match addressOf o.script with
      | some a => if a = exodusAddress then acc else some a
      | none => acc)
    none

/-- Modelled from the spec: the legacy branch of the parse orchestrator
(Class B, then Class A, else no payload), from the missing omnicore
parsing translation unit (spec sections 4.2 steps 2 to 4 and 4.5).  The
legacy Class A field table is a closed historical decode table absent from
the excerpted material; its payload is not modelled and no claim depends
on it. -/
def parseLegacy (height : Nat) (tx : Tx) (fee : Int) : ParseResult :=
  if hasClassBPattern tx.outputs then
    match getSenderByContribution tx.inputs with
    | some s =>
      .ok ⟨s, lastReference tx.outputs, fee, classBPayload tx.outputs, .classB, height⟩
    | none => .err .unresolvableSender
  else if hasClassAPattern tx.outputs then
    match getSenderByContribution tx.inputs with
    | some s => .ok ⟨s, lastReference tx.outputs, fee, [], .classA, height⟩
    | none => .err .unresolvableSender
  else .notProtocol

/-- Modelled from the spec: the null-data branch of the parse orchestrator
at or past the activation height.  The first null-data output is checked
for the marker: if it bears it the transaction is Class C, decoded with
first-input sender resolution; otherwise the transaction is Class-C-shaped
but invalid and propagates a decode error, not the no-payload result
(spec section 4.2, edge cases). -/
def parseNullData (height : Nat) (tx : Tx) (fee : Int) (pushes : List (List Nat)) :
    ParseResult :=
  if markerBearing pushes then
    match getSenderFirstIn tx.inputs with
    | some s =>
      .ok ⟨s, lastReference tx.outputs, fee, classCPayload tx.outputs, .classC, height⟩
    | none => .err .unresolvableSender
  else .err .malformedPayload

/-- Modelled from the spec: the parse orchestrator `ParseTransaction`, from
the missing omnicore parsing translation unit (spec section 4.5): classify
the encoding class under the height-gated activation rules, decode the
payload, resolve the sender with the class-appropriate algorithm (failure
of sender resolution fails the whole parse), compute the fee as summed
resolved input values minus summed output values, and package the
result. -/
def parseTransaction (rules : ActivationRules) (height : Nat) (tx : Tx) : ParseResult :=
  match firstNullData tx.outputs with
  | some pushes =>
    if rules.nulldataBlock ≤ height then
      parseNullData height tx (sumValues tx.inputs - sumValues tx.outputs) pushes
    else parseLegacy height tx (sumValues tx.inputs - sumValues tx.outputs)
  | none => parseLegacy height tx (sumValues tx.inputs - sumValues tx.outputs)

end Omni

namespace Omni

/-! ### Properties of the contribution-sum selection order -/

theorem wins_irrefl (l : List (String × Int)) (a : String) : ¬ wins l a a := by
  intro h
  rcases h with h | ⟨_, h⟩
  · exact lt_irrefl _ h
  · exact lt_irrefl _ h

theorem wins_trans {l : List (String × Int)} {a b c : String}
    (h1 : wins l a b) (h2 : wins l b c) : wins l a c := by
  rcases h1 with h1 | ⟨h1e, h1s⟩ <;> rcases h2 with h2 | ⟨h2e, h2s⟩
  · exact Or.inl (lt_trans h2 h1)
  · exact Or.inl (h2e ▸ h1)
  · exact Or.inl (h1e ▸ h2)
  · exact Or.inr ⟨h1e.trans h2e, lt_trans h1s h2s⟩

theorem wins_total (l : List (String × Int)) {a b : String} (h : a ≠ b) :
    wins l a b ∨ wins l b a := by
  rcases lt_trichotomy (sumFor l a) (sumFor l b) with hlt | heq | hgt
  · exact Or.inr (Or.inl hlt)
  · rcases lt_trichotomy a b with hs | hs | hs
    · exact Or.inl (Or.inr ⟨heq, hs⟩)
    · exact absurd hs h
    · exact Or.inr (Or.inr ⟨heq.symm, hs⟩)
  · exact Or.inl (Or.inl hgt)

theorem pickBest_mem (l : List (String × Int)) :
    ∀ (rest : List String) (a : String), pickBest l a rest ∈ a :: rest := by
  intro rest
  induction rest with
  | nil => intro a; simp [pickBest]
  | cons c rest ih =>
    intro a
    have hstep : pickBest l a (c :: rest) = pickBest l (if wins l c a then c else a) rest := by
      simp [pickBest, List.foldl_cons]
    rw [hstep]
    by_cases hw : wins l c a
    · rw [if_pos hw]
      rcases List.mem_cons.mp (ih c) with h | h
      · rw [h]; exact List.mem_cons_of_mem _ (List.mem_cons_self _ _)
      · exact List.mem_cons_of_mem _ (List.mem_cons_of_mem _ h)
    · rw [if_neg hw]
      rcases List.mem_cons.mp (ih a) with h | h
      · rw [h]; exact List.mem_cons_self _ _
      · exact List.mem_cons_of_mem _ (List.mem_cons_of_mem _ h)

theorem pickBest_not_beaten (l : List (String × Int)) :
    ∀ (rest : List String) (a : String), ∀ x ∈ a :: rest, ¬ wins l x (pickBest l a rest) := by
  intro rest
  induction rest with
  | nil =>
    intro a x hx
    rcases List.mem_cons.mp hx with h | h
    · subst h; simpa [pickBest] using wins_irrefl l x
    · cases h
  | cons c rest ih =>
    intro a x hx
    have hstep : pickBest l a (c :: rest) = pickBest l (if wins l c a then c else a) rest := by
      simp [pickBest, List.foldl_cons]
    rw [hstep]
    rcases List.mem_cons.mp hx with hxa | hxcr
    · by_cases hw : wins l c a
      · rw [if_pos hw]
        intro hxw
        exact ih c c (List.mem_cons_self _ _) (wins_trans hw (hxa ▸ hxw))
      · rw [if_neg hw]
        rw [hxa]
        exact ih a a (List.mem_cons_self _ _)
    · by_cases hw : wins l c a
      · rw [if_pos hw]
        exact ih c x hxcr
      · rw [if_neg hw]
        rcases List.mem_cons.mp hxcr with hxc | hxr
        · rw [hxc]
          intro hcw
          by_cases hca : c = a
          · rw [hca] at hcw
            exact ih a a (List.mem_cons_self _ _) hcw
          · rcases wins_total l hca with h1 | h1
            · exact hw h1
            · exact ih a a (List.mem_cons_self _ _) (wins_trans h1 hcw)
        · exact ih a x (List.mem_cons_of_mem _ hxr)

theorem best_unique {l : List (String × Int)} {cands : List String} {s t : String}
    (hs : s ∈ cands) (ht : t ∈ cands)
    (hmaxs : ∀ x ∈ cands, ¬ wins l x s) (hmaxt : ∀ x ∈ cands, ¬ wins l x t) : s = t := by
  by_contra hne
  rcases wins_total l hne with h | h
  · exact hmaxt s hs h
  · exact hmaxs t ht h

theorem getSenderByContribution_spec {inputs : List Output} {s : String}
    (h : getSenderByContribution inputs = some s) :
    s ∈ candidates inputs ∧ ∀ x ∈ candidates inputs, ¬ wins (contribList inputs) x s := by
  unfold getSenderByContribution at h
  by_cases hstd : inputs.all isStandardOutput
  · rw [if_pos hstd] at h
    cases hc : candidates inputs with
    | nil => rw [hc] at h; cases h
    | cons a rest =>
      rw [hc] at h
      have hs : s = pickBest (contribList inputs) a rest := by
        injection h with h2; exact h2.symm
      subst hs
      exact ⟨pickBest_mem _ rest a, pickBest_not_beaten _ rest a⟩
  · rw [if_neg hstd] at h; cases h

theorem sumFor_perm {l1 l2 : List (String × Int)} (h : l1.Perm l2) (a : String) :
    sumFor l1 a = sumFor l2 a :=
  ((h.filter _).map _).sum_eq

theorem contribList_perm {in1 in2 : List Output} (h : in1.Perm in2) :
    (contribList in1).Perm (contribList in2) :=
  h.filterMap _

theorem all_perm_eq {α : Type} {l1 l2 : List α} (p : α → Bool) (h : l1.Perm l2) :
    l1.all p = l2.all p := by
  cases hb : l2.all p
  · rcases List.all_eq_false.mp hb with ⟨x, hx, hpx⟩
    exact List.all_eq_false.mpr ⟨x, h.mem_iff.mpr hx, hpx⟩
  · exact List.all_eq_true.mpr fun x hx => List.all_eq_true.mp hb x (h.mem_iff.mp hx)

end Omni

namespace Omni

/-- Helper: the contribution-sum resolver returns any candidate that no
other candidate beats. -/
theorem getSender_eq_of_max {inputs : List Output} {a : String}
    (hstd : inputs.all isStandardOutput = true)
    (ha : a ∈ candidates inputs)
    (hmax : ∀ x ∈ candidates inputs, ¬ wins (contribList inputs) x a) :
    getSenderByContribution inputs = some a := by
  unfold getSenderByContribution
  rw [if_pos hstd]
  cases hc : candidates inputs with
  | nil => rw [hc] at ha; cases ha
  | cons a0 rest =>
    have hpm : pickBest (contribList inputs) a0 rest ∈ candidates inputs := by
      rw [hc]; exact pickBest_mem _ rest a0
    have hpb : ∀ x ∈ candidates inputs,
        ¬ wins (contribList inputs) x (pickBest (contribList inputs) a0 rest) := by
      rw [hc]; exact pickBest_not_beaten _ rest a0
    exact congrArg some (best_unique hpm ha hpb hmax)

/-- Helper: success of the contribution-sum resolver requires every input
to be standard. -/
theorem getSender_all_standard {inputs : List Output} {s : String}
    (h : getSenderByContribution inputs = some s) :
    inputs.all isStandardOutput = true := by
  unfold getSenderByContribution at h
  by_cases hstd : inputs.all isStandardOutput
  · exact hstd
  · rw [if_neg hstd] at h; cases h

/-- Claim C2: for a transaction resolved by contribution sums in which two
or more candidate input addresses have exactly equal greatest summed
contributed value, the resolver returns the candidate whose canonical
address string is lexicographically smallest (comparing the rendered
strings). -/
theorem contribution_tie_break_lex_smallest (inputs : List Output) (a : String)
    (hstd : inputs.all isStandardOutput = true)
    (ha : a ∈ candidates inputs)
    (hmax : ∀ b ∈ candidates inputs,
      sumFor (contribList inputs) b ≤ sumFor (contribList inputs) a)
    (htwo : ∃ b ∈ candidates inputs,
      b ≠ a ∧ sumFor (contribList inputs) b = sumFor (contribList inputs) a)
    (hlex : ∀ b ∈ candidates inputs,
      sumFor (contribList inputs) b = sumFor (contribList inputs) a → a = b ∨ a < b) :
    getSenderByContribution inputs = some a := by
  refine getSender_eq_of_max hstd ha ?_
  intro x hx hwx
  rcases hwx with hlt | ⟨heq, hxa⟩
  · exact absurd hlt (not_lt.mpr (hmax x hx))
  · rcases hlex x hx heq with h1 | h1
    · rw [h1] at hxa; exact lt_irrefl _ hxa
    · exact lt_asymm h1 hxa

/-- Inputs used to witness the tie-break claim: three equal contributions
from the addresses of p2pkh_contribution_by_sum_order_test. -/
def tieInputs : List Output :=
  [⟨Script.p2pkh "C9f2wm9DXgtfgwXrxhS5xhAjU75tgT557E", 1000⟩,
   ⟨Script.p2pkh "BwFYgknrvkQf47srLYBL9YdpXHAPtkqYHQ", 1000⟩,
   ⟨Script.p2pkh "CG3inEzV9BUmPkeoWNuDTDUJzczMTAhucn", 1000⟩]

/-- Witness for claim C2 at a concrete three-way tie. -/
theorem contribution_tie_break_lex_smallest_witness :
    getSenderByContribution tieInputs = some "BwFYgknrvkQf47srLYBL9YdpXHAPtkqYHQ" :=
  contribution_tie_break_lex_smallest tieInputs "BwFYgknrvkQf47srLYBL9YdpXHAPtkqYHQ"
    (by decide) (by decide) (by decide) (by decide)
    (by simp only [String.lt_iff_toList_lt]; decide)

/-- Claim C3: if any input's resolved prior output classifies as neither
P2PKH nor P2SH, contribution-sum sender resolution fails for the whole
transaction, regardless of the other inputs. -/
theorem contribution_fails_on_nonstandard_input (inputs : List Output) (o : Output)
    (ho : o ∈ inputs) (hns : addressOf o.script = none) :
    getSenderByContribution inputs = none := by
  have hall : inputs.all isStandardOutput = false :=
    List.all_eq_false.mpr ⟨o, ho, by simp [isStandardOutput, hns]⟩
  unfold getSenderByContribution
  rw [hall]
  rfl

/-- Witness for claim C3: one pay-to-pubkey input invalidates resolution
even next to standard inputs of larger value. -/
theorem contribution_fails_on_nonstandard_input_witness :
    getSenderByContribution
      [⟨Script.p2sh "UPMdqVyQ6xjkCXXX4zW2NL2mKPuMiknmRk", 1000⟩,
       ⟨Script.p2pk, 1⟩,
       ⟨Script.p2pkh "C2myZcxhdVfq6n364EgatYEdgdmxDTjrHj", 5000⟩] = none :=
  contribution_fails_on_nonstandard_input _ ⟨Script.p2pk, 1⟩ (by decide) rfl

/-- Claim C4: permuting the input list does not change the sender resolved
by contribution sums. -/
theorem contribution_perm_invariant (in1 in2 : List Output) (s : String)
    (hp : in1.Perm in2) (h1 : getSenderByContribution in1 = some s) :
    getSenderByContribution in2 = some s := by
  have spec1 := getSenderByContribution_spec h1
  have hstd2 : in2.all isStandardOutput = true :=
    (all_perm_eq isStandardOutput hp) ▸ getSender_all_standard h1
  have lperm : (contribList in1).Perm (contribList in2) := contribList_perm hp
  have candsPerm : (candidates in1).Perm (candidates in2) := lperm.map Prod.fst
  have hwiff : ∀ x y : String,
      wins (contribList in1) x y ↔ wins (contribList in2) x y := by
    intro x y
    unfold wins
    rw [sumFor_perm lperm x, sumFor_perm lperm y]
  refine getSender_eq_of_max hstd2 (candsPerm.mem_iff.mp spec1.1) ?_
  intro x hx hwx
  exact spec1.2 x (candsPerm.mem_iff.mpr hx) ((hwiff x s).mpr hwx)

/-- Witness inputs for the permutation claim. -/
def permIn1 : List Output :=
  [⟨Script.p2pkh "C2myZcxhdVfq6n364EgatYEdgdmxDTjrHj", 100⟩,
   ⟨Script.p2sh "UkyQxRd4Ft5vEaJcbGWGGW4HX5u6VXi8LJ", 777⟩]

/-- Witness for claim C4 at a concrete transposition of two inputs. -/
theorem contribution_perm_invariant_witness :
    getSenderByContribution
      [⟨Script.p2sh "UkyQxRd4Ft5vEaJcbGWGGW4HX5u6VXi8LJ", 777⟩,
       ⟨Script.p2pkh "C2myZcxhdVfq6n364EgatYEdgdmxDTjrHj", 100⟩]
      = some "UkyQxRd4Ft5vEaJcbGWGGW4HX5u6VXi8LJ" :=
  contribution_perm_invariant permIn1 _ _
    (List.Perm.swap _ _ _) (by decide)

/-- Claim C8: first-input sender resolution succeeds with the address of
the first input's prior output whenever that output is P2PKH or P2SH,
regardless of the remaining inputs, and fails whenever the first input's
prior output carries no address. -/
theorem first_input_resolution (o : Output) (rest : List Output) :
    (∀ a, addressOf o.script = some a → getSenderFirstIn (o :: rest) = some a) ∧
    (addressOf o.script = none → getSenderFirstIn (o :: rest) = none) := by
  constructor
  · intro a ha
    simpa [getSenderFirstIn] using ha
  · intro h
    simpa [getSenderFirstIn] using h

/-- Witness for claim C8: a standard first input wins next to
non-standard inputs, and a non-standard first input fails. -/
theorem first_input_resolution_witness :
    getSenderFirstIn
      [⟨Script.p2sh "UXto74uxrqBZ3WVkQiT5EMYpvbioJEr7Nv", 555⟩,
       ⟨Script.p2pk, 100⟩, ⟨Script.bareMultisig [], 100⟩, ⟨Script.nonStandard, 100⟩]
      = some "UXto74uxrqBZ3WVkQiT5EMYpvbioJEr7Nv" ∧
    getSenderFirstIn [⟨Script.p2pk, 100⟩] = none :=
  ⟨(first_input_resolution _ _).1 _ rfl, (first_input_resolution _ _).2 rfl⟩

end Omni

namespace Omni

/-! ### Parse orchestration lemmas -/

/-- Helper: the shape of a successful Class C parse. -/
theorem parse_classC_eq (rules : ActivationRules) (height : Nat) (tx : Tx)
    (pushes : List (List Nat)) (s : String)
    (hR : rules.nulldataBlock ≤ height)
    (hF : firstNullData tx.outputs = some pushes)
    (hM : markerBearing pushes = true)
    (hS : getSenderFirstIn tx.inputs = some s) :
    parseTransaction rules height tx =
      .ok ⟨s, lastReference tx.outputs, sumValues tx.inputs - sumValues tx.outputs,
        classCPayload tx.outputs, .classC, height⟩ := by
  simp only [parseTransaction, hF]
  rw [if_pos hR]
  simp only [parseNullData, hM, hS, if_true]

/-- Helper: the fee packaged by the legacy parse branch. -/
theorem parseLegacy_fee {height : Nat} {tx : Tx} {fee : Int} {m : ParsedMessage}
    (h : parseLegacy height tx fee = .ok m) : m.fee = fee := by
  unfold parseLegacy at h
  split at h
  · split at h
    · injection h with h2
      exact h2 ▸ rfl
    · cases h
  · split at h
    · split at h
      · injection h with h2
        exact h2 ▸ rfl
      · cases h
    · cases h

/-- Helper: the fee packaged by the null-data parse branch. -/
theorem parseNullData_fee {height : Nat} {tx : Tx} {fee : Int}
    {pushes : List (List Nat)} {m : ParsedMessage}
    (h : parseNullData height tx fee pushes = .ok m) : m.fee = fee := by
  unfold parseNullData at h
  split at h
  · split at h
    · injection h with h2
      exact h2 ▸ rfl
    · cases h
  · cases h

end Omni

namespace Omni

/-- Helper: the operational Class C concatenation loop computes the
declarative per-output concatenation. -/
theorem classCPayloadRaw_eq_flatten (outs : List Output) :
    classCPayloadRaw outs = (outs.filterMap markedPayload).flatten := by
  induction outs with
  | nil => rfl
  | cons o rest ih =>
    unfold classCPayloadRaw
    rw [ih]
    cases hsc : o.script with
    | nullData ps =>
      cases ps with
      | nil => simp [markedPayload, hsc, List.filterMap_cons, nullDataContribution]
      | cons first ps2 =>
        by_cases hb : beginsWith omMarker first
        · simp [markedPayload, hsc, hb, List.filterMap_cons, nullDataContribution]
        · simp [markedPayload, hsc, hb, List.filterMap_cons, nullDataContribution]
    | p2pkh a => simp [markedPayload, hsc, List.filterMap_cons]
    | p2sh a => simp [markedPayload, hsc, List.filterMap_cons]
    | p2pk => simp [markedPayload, hsc, List.filterMap_cons]
    | bareMultisig ks => simp [markedPayload, hsc, List.filterMap_cons]
    | nonStandard => simp [markedPayload, hsc, List.filterMap_cons]

/-- Every null-data output of the list, if any, pushes exactly the bare
marker. -/
def onlyMarkerNullData (outs : List Output) : Bool :=
  outs.all fun o =>
    match o.script with
    | .nullData ps => ps == [omMarker]
    | _ => true

/-- Helper: when every null-data output pushes exactly the bare marker,
the concatenated Class C payload is empty. -/
theorem classCPayloadRaw_eq_nil (outs : List Output)
    (h : onlyMarkerNullData outs = true) : classCPayloadRaw outs = [] := by
  induction outs with
  | nil => rfl
  | cons o rest ih =>
    simp only [onlyMarkerNullData, List.all_cons, Bool.and_eq_true] at h
    obtain ⟨ho, hrest⟩ := h
    unfold classCPayloadRaw
    rw [ih hrest]
    cases hsc : o.script with
    | nullData ps =>
      rw [hsc] at ho
      have hps : ps = [omMarker] := by simpa using ho
      rw [hps]
      decide
    | p2pkh a => rfl
    | p2sh a => rfl
    | p2pk => rfl
    | bareMultisig ks => rfl
    | nonStandard => rfl

end Omni

namespace Omni

/-! ### Claims on Class C decoding -/

/-- Claim C1 (amended): for a Class C transaction whose first null-data
output's first push begins with the 4-byte marker, the decoded payload is
the concatenation, in output order, over every null-data output whose
first push begins with the marker, of that output's first push with the
marker stripped followed by its remaining pushes verbatim; null-data
outputs whose first push lacks the marker contribute nothing, and the
result is truncated to the maximum payload length. -/
theorem classC_payload_per_output (rules : ActivationRules) (height : Nat) (tx : Tx)
    (pushes : List (List Nat)) (s : String)
    (hR : rules.nulldataBlock ≤ height)
    (hF : firstNullData tx.outputs = some pushes)
    (hM : markerBearing pushes = true)
    (hS : getSenderFirstIn tx.inputs = some s) :
    payloadOf (parseTransaction rules height tx) =
      some (((tx.outputs.filterMap markedPayload).flatten).take (MAX_PACKETS * PACKET_SIZE)) := by
  rw [parse_classC_eq rules height tx pushes s hR hF hM hS]
  simp [payloadOf, classCPayload, classCPayloadRaw_eq_flatten]

/-- The transaction of the multiple_op_return_short test: four null-data
outputs, the second without pushes, the others marker-bearing. -/
def shortTx : Tx :=
  { inputs := [⟨Script.p2pkh "C3mPrmQeD2wyZUea2PgSyndwJei4yvABgj", 100000⟩],
    outputs :=
      [⟨Script.nullData
          [[0x6f, 0x6d, 0x6e, 0x69, 0x00, 0x00, 0x11, 0x11, 0x22, 0x22, 0x33, 0x33]], 0⟩,
       ⟨Script.nullData [], 0⟩,
       ⟨Script.nullData
          [[0x6f, 0x6d, 0x6e, 0x69, 0x00, 0x01, 0x00, 0x02, 0x00, 0x03, 0x00, 0x04]], 0⟩,
       ⟨Script.nullData [[0x6f, 0x6d, 0x6e, 0x69]], 0⟩] }

/-- Witness for the amended claim C1 at the multiple_op_return_short
transaction. -/
theorem classC_payload_per_output_witness :
    payloadOf (parseTransaction ⟨100⟩ 100 shortTx) =
      some (((shortTx.outputs.filterMap markedPayload).flatten).take
        (MAX_PACKETS * PACKET_SIZE)) :=
  classC_payload_per_output ⟨100⟩ 100 shortTx _ _ (by decide) rfl (by decide) rfl

/-- Counterexample to claim C1 as stated: at the multiple_op_return_short
transaction the parsed payload (which matches the byte string the unit
test expects) differs from the concatenation prescribed by the claim,
because the markers of the later null-data outputs are stripped as well
instead of being appended verbatim. -/
theorem classC_payload_not_spec_worded :
    payloadOf (parseTransaction ⟨100⟩ 100 shortTx) =
      some [0x00, 0x00, 0x11, 0x11, 0x22, 0x22, 0x33, 0x33,
            0x00, 0x01, 0x00, 0x02, 0x00, 0x03, 0x00, 0x04]
    ∧ specWordedClassCPayload shortTx.outputs ≠
      [0x00, 0x00, 0x11, 0x11, 0x22, 0x22, 0x33, 0x33,
       0x00, 0x01, 0x00, 0x02, 0x00, 0x03, 0x00, 0x04] := by
  constructor
  · decide
  · decide

/-- Claim C5 (amended): at or past the null-data activation height, a
transaction whose first null-data output's first push does not begin with
the exact 4-byte marker yields a decode error, not the no-payload
result. -/
theorem no_marker_first_push_is_error (rules : ActivationRules) (height : Nat) (tx : Tx)
    (pushes : List (List Nat))
    (hR : rules.nulldataBlock ≤ height)
    (hF : firstNullData tx.outputs = some pushes)
    (hM : markerBearing pushes = false) :
    parseTransaction rules height tx = .err .malformedPayload := by
  simp only [parseTransaction, hF]
  rw [if_pos hR]
  simp [parseNullData, hM]

/-- The invalid transaction of multiple_op_return_pushes: the marker is
split across two shorter pushes, so the first push lacks the marker. -/
def splitMarkerTx : Tx :=
  { inputs := [⟨Script.p2pkh "UeZaknatSAkc3BW1bKgW78BBY4S9eqzw2Y", 100000⟩],
    outputs :=
      [⟨Script.nullData
          [[0x6f, 0x6d], [0x6e, 0x69],
           [0x00, 0x00, 0x00, 0x00, 0x00, 0x00, 0x00, 0x01,
            0x00, 0x00, 0x00, 0x00, 0x06, 0xda, 0xc2, 0xc0]], 0⟩] }

/-- Witness for the amended claim C5 at the split-marker transaction. -/
theorem no_marker_first_push_is_error_witness :
    parseTransaction ⟨100⟩ 100 splitMarkerTx = .err .malformedPayload :=
  no_marker_first_push_is_error ⟨100⟩ 100 splitMarkerTx _ (by decide) rfl (by decide)

/-- Does the output list contain a null-data output whose first push does
not begin with the marker? -/
def hasUnmarkedNullData (outs : List Output) : Bool :=
  outs.any fun o =>
    match o.script with
    | .nullData (first :: _) => !(beginsWith omMarker first)
    | _ => false

/-- The transaction of the multiple_op_return test: four marker-bearing
null-data outputs around one null-data output without the marker. -/
def mulTx : Tx :=
  { inputs := [⟨Script.p2pkh "UeZaknatSAkc3BW1bKgW78BBY4S9eqzw2Y", 100000⟩],
    outputs :=
      [⟨Script.nullData
          [[0x6f, 0x6d, 0x6e, 0x69, 0x12, 0x22, 0x22, 0x22, 0x22, 0x22, 0x22,
            0x22, 0x22, 0x22, 0x22, 0x22, 0x22, 0x23]], 0⟩,
       ⟨Script.nullData
          [[0x6f, 0x6d, 0x6e, 0x69, 0x45, 0x55, 0x55, 0x55, 0x55, 0x55, 0x55,
            0x55, 0x55, 0x55, 0x55, 0x55, 0x55, 0x56]], 5⟩,
       ⟨Script.nullData
          [[0x6f, 0x6d, 0x6e, 0x69, 0x78, 0x88, 0x88, 0x88, 0x88, 0x89]], 0⟩,
       ⟨Script.nullData
          [[0x4d, 0x75, 0x6c, 0x68, 0x6f, 0x6c, 0x6c, 0x61, 0x6e, 0x64, 0x20,
            0x44, 0x72, 0x69, 0x76, 0x65]], 0⟩] }

/-- Counterexample to claim C5 as stated: the multiple_op_return
transaction contains a null-data output whose first push does not begin
with the marker, yet parsing at the activation height succeeds (with the
payload the unit test expects) instead of returning a decode error,
because only the first null-data output is checked for the marker. -/
theorem no_marker_claim_counterexample :
    hasUnmarkedNullData mulTx.outputs = true
    ∧ payloadOf (parseTransaction ⟨100⟩ 100 mulTx) =
        some [0x12, 0x22, 0x22, 0x22, 0x22, 0x22, 0x22, 0x22, 0x22, 0x22, 0x22,
              0x22, 0x22, 0x23,
              0x45, 0x55, 0x55, 0x55, 0x55, 0x55, 0x55, 0x55, 0x55, 0x55, 0x55,
              0x55, 0x55, 0x56,
              0x78, 0x88, 0x88, 0x88, 0x88, 0x89] := by
  constructor
  · decide
  · decide

end Omni

namespace Omni

/-- Claim C6: a Class C transaction whose concatenated payload exceeds
MAX_PACKETS * PACKET_SIZE bytes still decodes successfully, and the
decoded payload is exactly the first MAX_PACKETS * PACKET_SIZE bytes of
the concatenation, the excess being dropped without error. -/
theorem classC_payload_truncation (rules : ActivationRules) (height : Nat) (tx : Tx)
    (pushes : List (List Nat)) (s : String)
    (hR : rules.nulldataBlock ≤ height)
    (hF : firstNullData tx.outputs = some pushes)
    (hM : markerBearing pushes = true)
    (hS : getSenderFirstIn tx.inputs = some s)
    (hLen : MAX_PACKETS * PACKET_SIZE < (classCPayloadRaw tx.outputs).length) :
    payloadOf (parseTransaction rules height tx) =
      some ((classCPayloadRaw tx.outputs).take (MAX_PACKETS * PACKET_SIZE))
    ∧ ((classCPayloadRaw tx.outputs).take (MAX_PACKETS * PACKET_SIZE)).length =
      MAX_PACKETS * PACKET_SIZE := by
  constructor
  · rw [parse_classC_eq rules height tx pushes s hR hF hM hS]
    simp [payloadOf, classCPayload]
  · rw [List.length_take]
    exact min_eq_left (le_of_lt hLen)

/-- A single marker-bearing push carrying MAX_PACKETS * PACKET_SIZE + 3
filler bytes, as in the trimmed_op_return test. -/
def overlongPush : List Nat :=
  omMarker ++ List.replicate (MAX_PACKETS * PACKET_SIZE + 3) 0x07

/-- The transaction of the trimmed_op_return test. -/
def overlongTx : Tx :=
  { inputs := [⟨Script.p2pkh "UeZaknatSAkc3BW1bKgW78BBY4S9eqzw2Y", 100000⟩],
    outputs := [⟨Script.nullData [overlongPush], 0⟩] }

/-- Helper: the overlong push begins with the marker. -/
theorem overlongPush_begins : beginsWith omMarker overlongPush = true := by
  simp [beginsWith, overlongPush, List.take_left]

/-- Helper: the untruncated payload of the overlong transaction is the
full filler. -/
theorem overlongTx_raw : classCPayloadRaw overlongTx.outputs =
    List.replicate (MAX_PACKETS * PACKET_SIZE + 3) 0x07 := by
  simp only [overlongTx, classCPayloadRaw, nullDataContribution, overlongPush_begins,
    if_true, overlongPush, List.flatten_nil, List.append_nil]
  exact List.drop_left omMarker _

/-- Witness for claim C6 at a payload three bytes over the bound. -/
theorem classC_payload_truncation_witness :
    payloadOf (parseTransaction ⟨100⟩ 100 overlongTx) =
      some ((classCPayloadRaw overlongTx.outputs).take (MAX_PACKETS * PACKET_SIZE))
    ∧ ((classCPayloadRaw overlongTx.outputs).take (MAX_PACKETS * PACKET_SIZE)).length =
      MAX_PACKETS * PACKET_SIZE :=
  classC_payload_truncation ⟨100⟩ 100 overlongTx [overlongPush]
    "UeZaknatSAkc3BW1bKgW78BBY4S9eqzw2Y" (by decide) rfl
    (by simp [markerBearing, overlongPush_begins]) rfl
    (by rw [overlongTx_raw, List.length_replicate]; omega)

/-- Claim C9: a Class C transaction whose null-data outputs carry the
marker and zero further payload bytes parses successfully and yields an
empty payload, not a failure. -/
theorem marker_only_yields_empty_payload (rules : ActivationRules) (height : Nat)
    (tx : Tx) (s : String)
    (hR : rules.nulldataBlock ≤ height)
    (hF : firstNullData tx.outputs = some [omMarker])
    (hOnly : onlyMarkerNullData tx.outputs = true)
    (hS : getSenderFirstIn tx.inputs = some s) :
    payloadOf (parseTransaction rules height tx) = some [] := by
  rw [parse_classC_eq rules height tx [omMarker] s hR hF (by decide) hS]
  simp [payloadOf, classCPayload, classCPayloadRaw_eq_nil tx.outputs hOnly]

/-- The transaction of the empty_op_return test: one null-data output
pushing exactly the marker, plus a standard output. -/
def markerOnlyTx : Tx :=
  { inputs := [⟨Script.p2pkh "UVpwGR2hhHgbwpcTm7a1gZAAaZCtKqLc4N", 900000⟩],
    outputs := [⟨Script.nullData [[0x6f, 0x6d, 0x6e, 0x69]], 0⟩,
                ⟨Script.p2pkh "C2uS5SDveHLU4oecepg8XJuizD3pMDs2m5", 900000⟩] }

/-- Witness for claim C9 at the empty_op_return transaction. -/
theorem marker_only_yields_empty_payload_witness :
    payloadOf (parseTransaction ⟨100⟩ 100 markerOnlyTx) = some [] :=
  marker_only_yields_empty_payload ⟨100⟩ 100 markerOnlyTx
    "UVpwGR2hhHgbwpcTm7a1gZAAaZCtKqLc4N" (by decide) rfl (by decide) rfl

end Omni

namespace Omni

/-! ### Claim on the packaged fee -/

/-- The concrete transaction of the fee scenario: inputs of 1,765,000 and
50,000 to two standard addresses, outputs summing to 1,765,000. -/
def feeTx : Tx :=
  { inputs := [⟨Script.p2pkh "C9ajxeK8qzjbzZQxkTFWKw8vycfChdi6xi", 1765000⟩,
               ⟨Script.p2pkh "Bv7iwfpnoTTDY7tA3xj6wQmrmdQJAT35V5", 50000⟩],
    outputs := [⟨Script.nullData [[0x6f, 0x6d, 0x6e, 0x69, 0x00]], 0⟩,
                ⟨Script.p2pkh "C4kYHmwRhj5ZgJdC2RYWKyujKfovZudFXJ", 1765000⟩] }

/-- Claim C7: every successful parse records as fee the sum of the
resolved input values minus the sum of the output values; in particular,
inputs of 1,765,000 and 50,000 with outputs summing to 1,765,000 yield a
fee of 50,000 and as sender the address contributing 1,765,000. -/
theorem fee_is_inputs_minus_outputs :
    (∀ (rules : ActivationRules) (height : Nat) (tx : Tx) (m : ParsedMessage),
      parseTransaction rules height tx = .ok m →
        m.fee = sumValues tx.inputs - sumValues tx.outputs)
    ∧ feeOf (parseTransaction ⟨100⟩ 100 feeTx) = some 50000
    ∧ senderOf (parseTransaction ⟨100⟩ 100 feeTx) =
        some "C9ajxeK8qzjbzZQxkTFWKw8vycfChdi6xi" := by
  refine ⟨?_, by decide, by decide⟩
  intro rules height tx m h
  unfold parseTransaction at h
  split at h
  · split at h
    · exact parseNullData_fee h
    · exact parseLegacy_fee h
  · exact parseLegacy_fee h

/-- The message produced by parsing the fee scenario transaction. -/
def feeMsg : ParsedMessage :=
  ⟨"C9ajxeK8qzjbzZQxkTFWKw8vycfChdi6xi",
   some "C4kYHmwRhj5ZgJdC2RYWKyujKfovZudFXJ", 50000, [0x00], .classC, 100⟩

/-- Witness for claim C7: the general fee equation applied to the
concrete fee scenario transaction. -/
theorem fee_is_inputs_minus_outputs_witness :
    feeMsg.fee = sumValues feeTx.inputs - sumValues feeTx.outputs :=
  fee_is_inputs_minus_outputs.1 ⟨100⟩ 100 feeTx feeMsg (by decide)

/-! ### Claim on the Class B encoder -/

/-- Claim C10: for every payload the Class B encoder succeeds and produces
zero or more bare-multisig outputs followed by exactly one final
pay-to-pubkey-hash output, and for the empty payload it emits exactly one
output, which pays the fixed Exodus reference address. -/
theorem classB_encoding_shape :
    (∀ payload : List Nat,
      (encodeClassB payload).dropLast.all isBareMultisigOutput = true
      ∧ (encodeClassB payload).getLast? =
          some ⟨Script.p2pkh exodusAddress, dustValue⟩)
    ∧ encodeClassB [] = [⟨Script.p2pkh exodusAddress, dustValue⟩] := by
  refine ⟨fun payload => ⟨?_, ?_⟩, ?_⟩
  · unfold encodeClassB
    rw [List.dropLast_concat]
    rw [List.all_eq_true]
    intro x hx
    rcases List.mem_map.mp hx with ⟨ks, _, hks⟩
    rw [← hks]
    rfl
  · unfold encodeClassB
    exact List.getLast?_concat _
  · simp [encodeClassB, chunksOf, pairUp]

end Omni
